import Mathlib

/-!
Verification of the dnslol concurrent DNS query-dispatch engine.

The repository contains several revisions of the same module.  We embed the
three that the properties below refer to:

- namespace Rev1: the revision with a DNSServerSelector and CAA tree-climbing
  (first document of src/unnamed/part_000);
- namespace Main: the revision in src/dnslol/dnslol.go (flat server list,
  no CAA, no database);
- namespace RevDB: the revision with database persistence (second document of
  src/unnamed/part_000); only its saveQueryResult retry loop is needed here.

External collaborators (the miekg dns resolution library, the Prometheus
client, the SQL driver) are modelled as oracles: resolution is a function
from a query to an exchange result, Prometheus counters are event logs, and
database inserts are a function from the attempt index to an optional error.
-/

namespace DnsLoL

/-- DNS record type codes, as assigned by IANA and used by the dns package
(dns.TypeA etc). -/
def TypeA : Nat := 1

def TypeAAAA : Nat := 28

def TypeTXT : Nat := 16

def TypeCAA : Nat := 257

/-- dns.TypeToString restricted to the record types this program requests.
A missing key in the Go map yields the empty string. -/
def typeToString (t : Nat) : String :=
  if t = TypeA then "A"
  else if t = TypeAAAA then "AAAA"
  else if t = TypeTXT then "TXT"
  else if t = TypeCAA then "CAA"
  else ""

/-- dns.RcodeSuccess. -/
def rcodeSuccess : Nat := 0

/-- dns.RcodeToString for the common rcodes.  A missing key in the Go map
yields the empty string. -/
def rcodeToString (rc : Nat) : String :=
  if rc = 0 then "NOERROR"
  else if rc = 1 then "FORMERR"
  else if rc = 2 then "SERVFAIL"
  else if rc = 3 then "NXDOMAIN"
  else if rc = 4 then "NOTIMP"
  else if rc = 5 then "REFUSED"
  else ""

/-- The error message of the addressRequiredErr value in the selector file. -/
def addressRequiredErr : String :=
  "One or more DNS recursive resolver addresses must be provided"

/-- roundRobinSelector: holds the configured addresses and the cursor
whichServer.  The Go cursor is guarded by a mutex; sequential calls are
modelled by explicit state passing.  The cursor is a Go int, incremented by
one per call; it is modelled as a Nat. -/
structure roundRobinSelector where
  addresses : List String
  whichServer : Nat
deriving Repr, DecidableEq

/-- PickServers of roundRobinSelector: read and post-increment the cursor,
then return a single-element list holding addresses[which mod len].
Indexing an empty list (which in Go would panic on which mod 0) is modelled
by the Option: the result is none exactly when addresses is empty. -/
def roundRobinSelector.PickServers (w : roundRobinSelector) :
    Option (List String) × roundRobinSelector :=
  let which := w.whichServer
  let w2 : roundRobinSelector := { w with whichServer := which + 1 }
  ((w.addresses[which % w.addresses.length]?).map (fun a => [a]), w2)

/-- NewRoundRobinSelector: rejects an empty address list, otherwise starts
the cursor at zero. -/
def NewRoundRobinSelector (addresses : List String) :
    Except String roundRobinSelector :=
  if addresses.length < 1 then .error addressRequiredErr
  else .ok { addresses := addresses, whichServer := 0 }

/-- The selector state after n successive PickServers calls. -/
def stateAfter (w : roundRobinSelector) : Nat → roundRobinSelector
  | 0 => w
  | n + 1 => (stateAfter w n).PickServers.2

/-- The list of servers returned by the n-th PickServers call (counting from
one): the call performed on the state reached after n - 1 earlier calls. -/
def nthPickResult (w : roundRobinSelector) (n : Nat) : Option (List String) :=
  ((stateAfter w (n - 1)).PickServers).1

theorem stateAfter_addresses (w : roundRobinSelector) (n : Nat) :
    (stateAfter w n).addresses = w.addresses := by
  induction n with
  | zero => rfl
  | succ n ih =>
    simp [stateAfter, roundRobinSelector.PickServers, ih]

theorem stateAfter_cursor (w : roundRobinSelector) (n : Nat) :
    (stateAfter w n).whichServer = w.whichServer + n := by
  induction n with
  | zero => rfl
  | succ n ih =>
    simp [stateAfter, roundRobinSelector.PickServers, ih]
    omega

/-- C3: for every non-empty address list, the n-th PickServers call of a
freshly constructed round-robin selector (counting calls from one) returns
exactly one server, namely addresses[(n - 1) mod len(addresses)]. -/
theorem roundRobin_nth_pick (addrs : List String) (h : addrs ≠ []) (n : Nat)
    (hn : 1 ≤ n) :
    nthPickResult { addresses := addrs, whichServer := 0 } n =
      some [addrs.get ⟨(n - 1) % addrs.length,
        Nat.mod_lt _ (List.length_pos.mpr h)⟩] := by
  have hlen : 0 < addrs.length := List.length_pos.mpr h
  unfold nthPickResult
  unfold roundRobinSelector.PickServers
  simp only [stateAfter_addresses, stateAfter_cursor]
  simp only [Nat.zero_add]
  rw [List.getElem?_eq_getElem (Nat.mod_lt _ hlen)]
  simp [List.get_eq_getElem]

/-- C3 witness: over servers [s1, s2, s3], the fourth call returns exactly
[s1] (and, unfolding the same theorem at n = 1, 2, 3, the earlier calls
return s1, s2, s3). -/
theorem roundRobin_nth_pick_witness :
    nthPickResult { addresses := ["s1", "s2", "s3"], whichServer := 0 } 4 =
      some ["s1"] := by
  have h := roundRobin_nth_pick ["s1", "s2", "s3"] (by decide) 4 (by decide)
  simpa using h

/-- A query: a server address, a name to look up and a record type.  This is
the query struct of the Rev1 and Main revisions (the RevDB revision attaches
a database id to the server; that id is not needed by any property here). -/
structure query where
  Server : String
  Name : String
  -- the Go field is named Type; Type is a keyword in Lean
  Typ : Nat
deriving Repr, DecidableEq

/-- A network-layer error returned by dnsClient.Exchange.  The opError case
stands for a value of type net.OpError (with its Timeout() flag); the
otherError case is any other error value. -/
inductive netError where
  | opError (isTimeout : Bool) (msg : String)
  | otherError (msg : String)
deriving Repr, DecidableEq

/-- One resource record of a DNS answer: either a CAA record with its
property tag and value, or any other record type. -/
inductive answerRecord where
  | caa (tag : String) (value : String)
  | other
deriving Repr, DecidableEq

/-- The reply message of an exchange: its response code and answer section. -/
structure dnsMsg where
  Rcode : Nat
  Answer : List answerRecord
deriving Repr, DecidableEq

/-- The outcome of one dnsClient.Exchange call: an optional error, the reply
(only inspected when err is none, as in the Go code) and the round-trip time
in nanoseconds. -/
structure exchangeResult where
  err : Option netError
  msg : dnsMsg
  rttNs : Nat
deriving Repr, DecidableEq

/-- The shared Prometheus metrics of the dnslol package, modelled as event
logs: one entry is appended per counter increment or summary observation.
attempts and successes log the server label; results logs (server, result);
queryTimes logs (server, type, observed rtt). -/
structure Stats where
  attempts : List String
  successes : List String
  results : List (String × String)
  queryTimes : List (String × String × Nat)
deriving Repr, DecidableEq

/-- The all-zero counter state the process starts with. -/
def emptyStats : Stats := ⟨[], [], [], []⟩

/-- Split a character list at every occurrence of the separator character,
keeping empty parts: the list of parts between separators. -/
def splitChar (c : Char) : List Char → List (List Char)
  | [] => [[]]
  | a :: rest =>
    match splitChar c rest with
    | [] => [[]]
    | grp :: grps => if a = c then [] :: grp :: grps else (a :: grp) :: grps

/-- strings.Split(s, sep) for the one-character separator the program uses:
split s at every dot, keeping empty parts; the empty string yields one empty
label, exactly as in Go.  (The match in splitChar never returns an empty
list, so the extra [[]] arm is unreachable.) -/
def splitDots (s : String) : List String :=
  (splitChar '.' s.toList).map (fun l => { data := l })

/-- strings.ToLower: lower-case every character.  CAA property tags are
ASCII, where the per-character Char.toLower agrees with the Unicode lowering
that Go performs. -/
def asciiToLower (s : String) : String := { data := s.data.map Char.toLower }

namespace Rev1

/-- The Experiment configuration of the selector/CAA revision.  The Selector
interface value is modelled by SelectorPresent (whether it is non-nil); what
a PickServers call returns is passed separately to runQueries.  Durations
are in nanoseconds (Go time.Duration); Parallel and SpawnRate are Go ints. -/
structure Experiment where
  MetricsAddr : String
  CommandLine : String
  SelectorPresent : Bool
  Proto : String
  TimeoutNs : Int
  Parallel : Int
  SpawnRate : Int
  SpawnIntervalNs : Int
  CheckA : Bool
  CheckAAAA : Bool
  CheckTXT : Bool
  CheckCAA : Bool
  PrintResults : Bool
deriving Repr, DecidableEq

/-- Experiment.Valid of the Rev1 revision: the chain of checks, first failure
wins; none means the Experiment is valid.  Timeout.Seconds() < 1 is exactly
TimeoutNs < 10^9. -/
def Valid (e : Experiment) : Option String :=
  if e.MetricsAddr = "" then
    some "Experiment must have a non-empty MetricsAddr"
  else if e.CommandLine = "" then
    some "Experiment must have a non-empty CommandLine"
  else if e.SelectorPresent = false then
    some "Experiment must have a non-nil Selector"
  else if e.Proto ≠ "tcp" ∧ e.Proto ≠ "udp" then
    some "Experiment must have a Proto value of \"tcp\" or \"udp\""
  else if e.TimeoutNs < 1000000000 then
    some "Experiment must have a Timeout greater than 1 second"
  else if e.Parallel < 1 then
    some "Experiment must have a Parallel value greater than 1"
  else if e.SpawnRate < 1 then
    some "Experiment must have a SpawnRate value greater than 1"
  else if ¬e.CheckA ∧ ¬e.CheckAAAA ∧ ¬e.CheckTXT ∧ ¬e.CheckCAA then
    some "Experiment must have at least one CheckA, CheckAAAA, CheckTXT or CheckCAA set to true"
  else
    none

/-- The queryPerServer closure of Rev1 buildQueries: one query per server
for the given name and type, in server order. -/
def queryPerServer (servers : List String) (name : String) (typ : Nat) :
    List query :=
  servers.map (fun server => { Server := server, Name := name, Typ := typ })

/-- Rev1 buildQueries: A, AAAA and TXT queries for the name itself, then the
CAA tree-climb: split the name on dots and emit, per suffix labels[i:] for
each index i, one CAA query per server. -/
def buildQueries (e : Experiment) (name : String) (servers : List String) :
    List query :=
  (if e.CheckA then queryPerServer servers name TypeA else []) ++
  (if e.CheckAAAA then queryPerServer servers name TypeAAAA else []) ++
  (if e.CheckTXT then queryPerServer servers name TypeTXT else []) ++
  (if e.CheckCAA then
    (List.range (splitDots name).length).flatMap
      (fun i => queryPerServer servers
        (String.intercalate "." ((splitDots name).drop i)) TypeCAA)
  else [])

theorem filter_queryPerServer (servers : List String) (name : String)
    (typ : Nat) (s : String) (t : Nat) :
    (queryPerServer servers name typ).filter
        (fun q => decide (q.Server = s ∧ q.Typ = t)) =
      if typ = t then
        (servers.filter (fun srv => decide (srv = s))).map
          (fun srv => { Server := srv, Name := name, Typ := typ })
      else [] := by
  induction servers with
  | nil => simp [queryPerServer]
  | cons srv rest ih =>
    by_cases ht : typ = t
    · by_cases hsrv : srv = s
      · simp [queryPerServer, List.filter_cons, ht, hsrv] at ih ⊢ <;>
          exact ih
      · simp [queryPerServer, List.filter_cons, ht, hsrv] at ih ⊢ <;>
          exact ih
    · simp [queryPerServer, List.filter_cons, ht] at ih ⊢ <;>
        exact ih

theorem filter_eq_of_count_one {α : Type} [DecidableEq α] (l : List α)
    (a : α) (h : l.count a = 1) :
    l.filter (fun x => decide (x = a)) = [a] := by
  induction l with
  | nil => simp at h
  | cons b rest ih =>
    rw [List.count_cons] at h
    by_cases hb : b = a
    · have hrest : rest.count a = 0 := by
        simp [hb] at h
        omega
      have hnotin : a ∉ rest := List.count_eq_zero.mp hrest
      have : rest.filter (fun x => decide (x = a)) = [] := by
        rw [List.filter_eq_nil_iff]
        intro x hx
        simp only [decide_eq_true_eq]
        intro hxa
        exact hnotin (hxa ▸ hx)
      simp [hb, this]
    · simp only [beq_iff_eq, hb, if_false] at h
      simp [hb, ih (by omega)]

theorem flatMap_single_eq_map {α β : Type} (g : α → β) (l : List α) :
    (l.flatMap (fun a => [g a])) = l.map g := by
  induction l with
  | nil => rfl
  | cons a rest ih => simp [List.flatMap_cons, ih]

/-- C1: when CheckCAA is enabled, for every name and every server that
occurs exactly once in the picked server list, the CAA queries built for
that server are exactly one per dot-separated suffix of the name, in suffix
order; in particular their number equals the number of dot-separated labels
of the name. -/
theorem buildQueries_caa_per_server (e : Experiment) (name : String)
    (servers : List String) (s : String) (hCAA : e.CheckCAA = true)
    (hs : servers.count s = 1) :
    ((buildQueries e name servers).filter
        (fun q => decide (q.Server = s ∧ q.Typ = TypeCAA))) =
      (List.range (splitDots name).length).map
        (fun i => { Server := s,
                    Name := String.intercalate "." ((splitDots name).drop i),
                    Typ := TypeCAA }) ∧
    ((buildQueries e name servers).countP
        (fun q => decide (q.Server = s ∧ q.Typ = TypeCAA))) =
      (splitDots name).length := by
  have hfilter : ((buildQueries e name servers).filter
      (fun q => decide (q.Server = s ∧ q.Typ = TypeCAA))) =
      (List.range (splitDots name).length).map
        (fun i => { Server := s,
                    Name := String.intercalate "." ((splitDots name).drop i),
                    Typ := TypeCAA }) := by
    unfold buildQueries
    rw [hCAA, if_pos rfl]
    rw [List.filter_append, List.filter_append, List.filter_append]
    have hblockA : ∀ (b : Bool) (nm : String) (ty : Nat), ty ≠ TypeCAA →
        ((if b then queryPerServer servers nm ty else []).filter
          (fun q => decide (q.Server = s ∧ q.Typ = TypeCAA))) = [] := by
      intro b nm ty hty
      cases b
      · simp
      · rw [if_pos rfl, filter_queryPerServer]
        simp [hty]
    rw [hblockA e.CheckA name TypeA (by decide),
        hblockA e.CheckAAAA name TypeAAAA (by decide),
        hblockA e.CheckTXT name TypeTXT (by decide)]
    simp only [List.nil_append]
    rw [List.filter_flatMap]
    have hone : ∀ i : Nat,
        ((queryPerServer servers
            (String.intercalate "." ((splitDots name).drop i))
            TypeCAA).filter
          (fun q => decide (q.Server = s ∧ q.Typ = TypeCAA))) =
        [{ Server := s,
           Name := String.intercalate "." ((splitDots name).drop i),
           Typ := TypeCAA }] := by
      intro i
      rw [filter_queryPerServer, if_pos rfl, filter_eq_of_count_one servers s hs]
      rfl
    calc ((List.range (splitDots name).length).flatMap
            (fun i => ((queryPerServer servers
              (String.intercalate "." ((splitDots name).drop i))
              TypeCAA).filter
                (fun q => decide (q.Server = s ∧ q.Typ = TypeCAA)))))
        = (List.range (splitDots name).length).flatMap
            (fun i => [{ Server := s,
                         Name := String.intercalate "."
                           ((splitDots name).drop i),
                         Typ := TypeCAA }]) := by
          exact List.flatMap_congr (fun i _ => hone i)
      _ = (List.range (splitDots name).length).map
            (fun i => { Server := s,
                        Name := String.intercalate "."
                          ((splitDots name).drop i),
                        Typ := TypeCAA }) := by
          exact flatMap_single_eq_map _ _
  refine ⟨hfilter, ?_⟩
  rw [List.countP_eq_length_filter, hfilter, List.length_map,
      List.length_range]

/-- A concrete CAA-enabled Experiment used by the C1 witness. -/
def expC1 : Experiment :=
  { MetricsAddr := ":6363", CommandLine := "dnslol", SelectorPresent := true,
    Proto := "udp", TimeoutNs := 30000000000, Parallel := 1, SpawnRate := 1,
    SpawnIntervalNs := 0, CheckA := false, CheckAAAA := false,
    CheckTXT := false, CheckCAA := true, PrintResults := false }

/-- C1 witness: for the name example.com and the single server s1, exactly
two CAA queries are planned for s1, one for example.com and one for com. -/
theorem buildQueries_caa_per_server_witness :
    ((buildQueries expC1 "example.com" ["s1"]).countP
        (fun q => decide (q.Server = "s1" ∧ q.Typ = TypeCAA))) = 2 := by
  have h := buildQueries_caa_per_server expC1 "example.com" ["s1"] "s1"
    rfl (by decide)
  rw [h.2]
  decide

/-- The triple returned by Rev1 queryOne: an rcode string, a success flag
and an optional error. -/
structure queryResult where
  rcodeStr : String
  success : Bool
  err : Option String
deriving Repr, DecidableEq

/-- The first CAA record of the answer section whose property tag is not
already in lowercase form, if any: the record at which the scan loop of
queryOne returns.  Tags are ASCII, where Char.toLower agrees with the Go
strings.ToLower. -/
def findTagMismatch : List answerRecord → Option String
  | [] => none
  | .caa tag _ :: rest =>
      if asciiToLower tag ≠ tag then some tag else findTagMismatch rest
  | .other :: rest => findTagMismatch rest

/-- The error message manufactured for a CAA tag case mismatch.  The Go
message also renders the whole record after the colon; the model keeps the
lowercased tag part that identifies the message. -/
def tagMismatchMsg (tag : String) : String :=
  "tag mismatch for " ++ asciiToLower tag

/-- Rev1 queryOne, as a function of the exchange outcome delivered by the
resolution collaborator: observe the latency (always, before any branch),
then classify.  A timeout OpError becomes the error timeout, any other
OpError becomes net err, other error values pass through; the error is then
wrapped with the query type.  With no error, a non-success rcode gives that
rcode string with success false; with a success rcode, any CAA record whose
tag is not lowercase gives a manufactured tag-mismatch error; otherwise the
rcode string with success true. -/
def queryOne (resolve : query → exchangeResult) (q : query) (st : Stats) :
    queryResult × Stats :=
  let typStr := typeToString q.Typ
  let ex := resolve q
  let st2 : Stats :=
    { st with queryTimes := st.queryTimes ++ [(q.Server, typStr, ex.rttNs)] }
  match ex.err with
  | some e =>
    let eStr := match e with
      | .opError true _ => "timeout"
      | .opError false _ => "net err"
      | .otherError m => m
    ({ rcodeStr := "", success := false,
       err := some ("for " ++ typStr ++ ": " ++ eStr) }, st2)
  | none =>
    if ex.msg.Rcode ≠ rcodeSuccess then
      ({ rcodeStr := rcodeToString ex.msg.Rcode, success := false,
         err := none }, st2)
    else
      match findTagMismatch ex.msg.Answer with
      | some tag =>
        ({ rcodeStr := "", success := false,
           err := some (tagMismatchMsg tag) }, st2)
      | none =>
        ({ rcodeStr := rcodeToString ex.msg.Rcode, success := true,
           err := none }, st2)

/-- The body of the Rev1 runQueries loop for one query: increment attempts,
run queryOne, then increment successes only when the success flag is true,
and increment results with the error string when there is an error or with
the rcode string otherwise. -/
def runQueriesStep (resolve : query → exchangeResult) (st : Stats)
    (q : query) : Stats :=
  let st1 : Stats := { st with attempts := st.attempts ++ [q.Server] }
  let (r, st2) := queryOne resolve q st1
  match r.err with
  | some e => { st2 with results := st2.results ++ [(q.Server, e)] }
  | none =>
    if r.success then
      { st2 with successes := st2.successes ++ [q.Server],
                 results := st2.results ++ [(q.Server, r.rcodeStr)] }
    else
      { st2 with results := st2.results ++ [(q.Server, r.rcodeStr)] }

theorem findTagMismatch_isSome (answers : List answerRecord)
    (h : ∃ r ∈ answers, ∃ tag value,
      r = answerRecord.caa tag value ∧ asciiToLower tag ≠ tag) :
    ∃ tag, findTagMismatch answers = some tag ∧ asciiToLower tag ≠ tag := by
  induction answers with
  | nil => simp at h
  | cons r rest ih =>
    rcases h with ⟨r0, hr0, tag, value, hcaa, hlow⟩
    rcases List.mem_cons.mp hr0 with h1 | h1
    · subst h1
      subst hcaa
      cases hfirst : findTagMismatch (answerRecord.caa tag value :: rest) with
      | none =>
        rw [findTagMismatch] at hfirst
        rw [if_pos hlow] at hfirst
        exact absurd hfirst (by simp)
      | some t =>
        refine ⟨t, rfl, ?_⟩
        rw [findTagMismatch] at hfirst
        rw [if_pos hlow] at hfirst
        cases hfirst
        exact hlow
    · cases r with
      | caa tag2 value2 =>
        by_cases h2 : asciiToLower tag2 ≠ tag2
        · exact ⟨tag2, by rw [findTagMismatch, if_pos h2], h2⟩
        · have := ih ⟨r0, h1, tag, value, hcaa, hlow⟩
          rcases this with ⟨t, ht, hlt⟩
          exact ⟨t, by rw [findTagMismatch, if_neg h2]; exact ht, hlt⟩
      | other =>
        have := ih ⟨r0, h1, tag, value, hcaa, hlow⟩
        rcases this with ⟨t, ht, hlt⟩
        exact ⟨t, by rw [findTagMismatch]; exact ht, hlt⟩

/-- C4: a query whose exchange succeeds at the protocol level (no transport
error, success rcode) but whose answer holds a CAA record with a tag that is
not already lowercase is classified by queryOne as a failure carrying the
manufactured tag-mismatch error, never as a success; processing it in the
runQueries loop leaves the successes counter unchanged. -/
theorem queryOne_caa_tag_case (resolve : query → exchangeResult) (q : query)
    (st : Stats) (hne : (resolve q).err = none)
    (hrc : (resolve q).msg.Rcode = rcodeSuccess)
    (hmm : ∃ r ∈ (resolve q).msg.Answer, ∃ tag value,
      r = answerRecord.caa tag value ∧ asciiToLower tag ≠ tag) :
    (queryOne resolve q st).1.success = false ∧
    (∃ tag, (queryOne resolve q st).1.err = some (tagMismatchMsg tag) ∧
      asciiToLower tag ≠ tag) ∧
    (runQueriesStep resolve st q).successes = st.successes := by
  obtain ⟨tag, htag, hlow⟩ := findTagMismatch_isSome _ hmm
  have hq : queryOne resolve q st =
      ({ rcodeStr := "", success := false,
         err := some (tagMismatchMsg tag) },
       { st with queryTimes := st.queryTimes ++
          [(q.Server, typeToString q.Typ, (resolve q).rttNs)] }) := by
    simp [queryOne, hne, hrc, htag]
  refine ⟨by rw [hq], ⟨tag, by rw [hq], hlow⟩, ?_⟩
  have hq1 : queryOne resolve q
      { st with attempts := st.attempts ++ [q.Server] } =
      ({ rcodeStr := "", success := false,
         err := some (tagMismatchMsg tag) },
       { st with attempts := st.attempts ++ [q.Server],
                 queryTimes := st.queryTimes ++
          [(q.Server, typeToString q.Typ, (resolve q).rttNs)] }) := by
    simp [queryOne, hne, hrc, htag]
  simp only [runQueriesStep]
  rw [hq1]

/-- The exchange outcome used by the C4 witness: a protocol-level success
whose answer carries a CAA record with the uppercased tag Issue. -/
def exchangeC4 : exchangeResult :=
  { err := none,
    msg := { Rcode := 0, Answer := [answerRecord.caa "Issue" "ca.example"] },
    rttNs := 5 }

/-- C4 witness: at that concrete exchange the query is not a success, it
carries a tag-mismatch error, and the successes counter stays empty. -/
theorem queryOne_caa_tag_case_witness :
    (queryOne (fun _ => exchangeC4)
        { Server := "s1", Name := "example.com", Typ := TypeCAA }
        emptyStats).1.success = false ∧
    (runQueriesStep (fun _ => exchangeC4) emptyStats
        { Server := "s1", Name := "example.com", Typ := TypeCAA }).successes
      = [] := by
  have h := queryOne_caa_tag_case (fun _ => exchangeC4)
    { Server := "s1", Name := "example.com", Typ := TypeCAA }
    emptyStats rfl rfl
    ⟨answerRecord.caa "Issue" "ca.example", by decide, "Issue", "ca.example",
      rfl, by decide⟩
  exact ⟨h.1, h.2.2⟩

/-- Rev1 runQueries.  The dnsClient nil check is modelled by a flag; the
server list returned by the PickServers call of the Selector is passed in.
A nil client or an empty pick returns an error; otherwise the loop body
runs over the built queries, threading the stats. -/
def runQueries (resolve : query → exchangeResult) (e : Experiment)
    (dnsClientPresent : Bool) (servers : List String) (name : String)
    (st : Stats) : Except String Stats :=
  if dnsClientPresent = false then
    .error "runQueries requires a non-nil dnsClient instance"
  else if servers.length = 0 then
    .error "Experiment selector returned zero DNS server addresses from PickServers"
  else
    .ok ((buildQueries e name servers).foldl (runQueriesStep resolve) st)

/-- What becomes of one name inside a worker goroutine: an error from
runQueries reaches log.Fatalf, which terminates the whole process; otherwise
the name completes and the waitgroup is signalled. -/
inductive workerOutcome where
  | fatal (msg : String)
  | done (st : Stats)
deriving Repr, DecidableEq

/-- The body of the worker loop in spawn for one received name: run the
queries and call log.Fatalf on any error (modelled by the fatal outcome,
which stands for immediate process termination). -/
def workerProcessName (resolve : query → exchangeResult) (e : Experiment)
    (dnsClientPresent : Bool) (servers : List String) (name : String)
    (st : Stats) : workerOutcome :=
  match runQueries resolve e dnsClientPresent servers name st with
  | .error msg => .fatal ("Error running queries for " ++ name ++ ": " ++ msg)
  | .ok st2 => .done st2

/-- Whether the worker outcome terminates the run: log.Fatalf exits the
process, so no further name is processed by any worker. -/
def terminatesRun : workerOutcome → Bool
  | .fatal _ => true
  | .done _ => false

/-- C7 counterexample: with an empty PickServers result for the name a.com,
the worker outcome is fatal, so the run as a whole IS terminated; the claim
that only the enclosing query is aborted and the run continues is false at
this input. -/
theorem selector_empty_terminates_run_cex :
    ¬ (terminatesRun (workerProcessName (fun _ => exchangeC4) expC1 true []
        "a.com" emptyStats) = false) := by
  decide

/-- C7 amended: whenever PickServers returns an empty sequence, runQueries
aborts with the selector error before building or executing any query, and
the worker then calls log.Fatalf, terminating the whole run (so the other
names are NOT processed further). -/
theorem selector_empty_fatal (resolve : query → exchangeResult)
    (e : Experiment) (name : String) (st : Stats) :
    runQueries resolve e true [] name st =
      .error
        "Experiment selector returned zero DNS server addresses from PickServers"
    ∧ terminatesRun (workerProcessName resolve e true [] name st) = true := by
  constructor
  · simp [runQueries]
  · simp [workerProcessName, runQueries, terminatesRun]

/-- The observable effects of a successful Start: the metrics server is
started and spawn is launched with a dns client built from the Experiment
protocol and timeout.  Start only produces this after Valid has passed. -/
structure engineRun where
  dnsClientProto : String
  dnsClientTimeoutNs : Int
deriving Repr, DecidableEq

/-- Rev1 Start: validate first and return the validation error before the
metrics server, the dns client or any worker goroutine is created;
otherwise start the engine. -/
def Start (e : Experiment) : Except String engineRun :=
  match Valid e with
  | some msg => .error msg
  | none => .ok { dnsClientProto := e.Proto, dnsClientTimeoutNs := e.TimeoutNs }

/-- C9: an Experiment failing any of the validation conditions makes Start
return a validation error; no engineRun value is produced, so no worker is
spawned and no query is dispatched. -/
theorem Start_rejects_invalid (e : Experiment)
    (h : e.MetricsAddr = "" ∨ e.CommandLine = "" ∨
      e.SelectorPresent = false ∨ (e.Proto ≠ "tcp" ∧ e.Proto ≠ "udp") ∨
      e.TimeoutNs < 1000000000 ∨ e.Parallel < 1 ∨ e.SpawnRate < 1 ∨
      (¬e.CheckA ∧ ¬e.CheckAAAA ∧ ¬e.CheckTXT ∧ ¬e.CheckCAA)) :
    ∃ msg, Start e = .error msg := by
  have hv : Valid e ≠ none := by
    intro hv
    unfold Valid at hv
    split_ifs at hv with h1 h2 h3 h4 h5 h6 h7 h8 <;>
      try exact Option.noConfusion hv
    rcases h with h | h | h | h | h | h | h | h
    · exact h1 h
    · exact h2 h
    · exact h3 h
    · exact h4 h
    · exact h5 h
    · exact h6 h
    · exact h7 h
    · exact h8 h
  cases hvv : Valid e with
  | none => exact absurd hvv hv
  | some m => exact ⟨m, by simp [Start, hvv]⟩

/-- An Experiment that is invalid because Parallel is zero. -/
def expBadParallel : Experiment :=
  { MetricsAddr := ":6363", CommandLine := "dnslol", SelectorPresent := true,
    Proto := "udp", TimeoutNs := 30000000000, Parallel := 0, SpawnRate := 1,
    SpawnIntervalNs := 0, CheckA := true, CheckAAAA := false,
    CheckTXT := false, CheckCAA := false, PrintResults := false }

/-- C9 witness: Start rejects the concrete Experiment with Parallel zero. -/
theorem Start_rejects_invalid_witness :
    ∃ msg, Start expBadParallel = .error msg := by
  apply Start_rejects_invalid
  right; right; right; right; right
  left
  decide

end Rev1

namespace Main

/-- The Experiment configuration of the src/dnslol/dnslol.go revision: a
flat list of server addresses, no selector and no CAA check. -/
structure Experiment where
  MetricsAddr : String
  CommandLine : String
  Servers : List String
  Proto : String
  TimeoutNs : Int
  Parallel : Int
  SpawnRate : Int
  SpawnIntervalNs : Int
  CheckA : Bool
  CheckAAAA : Bool
  CheckTXT : Bool
  PrintResults : Bool
deriving Repr, DecidableEq

/-- The queryPerServer closure of Main buildQueries: one query per
configured server for the given name and type. -/
def queryPerServer (e : Experiment) (name : String) (typ : Nat) :
    List query :=
  e.Servers.map (fun server => { Server := server, Name := name, Typ := typ })

/-- Main buildQueries: A, AAAA and TXT queries for the name, depending on
the enabled checks. -/
def buildQueries (e : Experiment) (name : String) : List query :=
  (if e.CheckA then queryPerServer e name TypeA else []) ++
  (if e.CheckAAAA then queryPerServer e name TypeAAAA else []) ++
  (if e.CheckTXT then queryPerServer e name TypeTXT else [])

/-- The error classification of Main queryOne as a function of the exchange
outcome: a timeout OpError becomes the fixed error timeout, any other
OpError becomes the fixed error net err, other error values are returned
unchanged; with no error, a non-success rcode becomes an error carrying the
rcode string; otherwise nil. -/
def classifyExchange (ex : exchangeResult) : Option String :=
  match ex.err with
  | some (.opError true _) => some "timeout"
  | some (.opError false _) => some "net err"
  | some (.otherError m) => some m
  | none =>
    if ex.msg.Rcode ≠ rcodeSuccess then some (rcodeToString ex.msg.Rcode)
    else none

/-- Main queryOne: perform the exchange, observe its latency labelled by
server and type (always, before any branch on the outcome), and return the
classified error. -/
def queryOne (resolve : query → exchangeResult) (q : query) (st : Stats) :
    Option String × Stats :=
  let typStr := typeToString q.Typ
  let ex := resolve q
  (classifyExchange ex,
   { st with queryTimes := st.queryTimes ++ [(q.Server, typStr, ex.rttNs)] })

/-- C5: every queryOne call appends exactly one latency observation to the
queryTime distribution, labelled by the server and the record type, whatever
the outcome is; and an exchange that fails with a timeout is classified as
the timeout outcome while that latency sample is still recorded. -/
theorem queryOne_latency_always (resolve : query → exchangeResult)
    (q : query) (st : Stats) :
    (queryOne resolve q st).2.queryTimes =
      st.queryTimes ++ [(q.Server, typeToString q.Typ, (resolve q).rttNs)] ∧
    (∀ m, (resolve q).err = some (.opError true m) →
      (queryOne resolve q st).1 = some "timeout") := by
  constructor
  · simp [queryOne]
  · intro m hm
    simp [queryOne, classifyExchange, hm]

/-- The exchange of the C5 witness: a timed-out query with a 30ns latency
sample. -/
def exchangeC5 : exchangeResult :=
  { err := some (.opError true "i/o timeout"), msg := { Rcode := 0, Answer := [] },
    rttNs := 30 }

/-- C5 witness: at the concrete timed-out exchange the outcome is the
timeout error and the single latency observation is recorded for the server
and the type A. -/
theorem queryOne_latency_always_witness :
    (queryOne (fun _ => exchangeC5)
        { Server := "s1", Name := "a.com", Typ := TypeA } emptyStats).1 =
      some "timeout" ∧
    (queryOne (fun _ => exchangeC5)
        { Server := "s1", Name := "a.com", Typ := TypeA }
        emptyStats).2.queryTimes = [("s1", "A", 30)] := by
  have h := queryOne_latency_always (fun _ => exchangeC5)
    { Server := "s1", Name := "a.com", Typ := TypeA } emptyStats
  refine ⟨h.2 "i/o timeout" rfl, ?_⟩
  rw [h.1]
  decide

/-- C8: an exchange that fails with a network-layer error (an OpError) that
is not a timeout is classified with the fixed generic label net err,
whatever the underlying error message is; the message is never propagated
into the result. -/
theorem queryOne_net_err_generic (resolve : query → exchangeResult)
    (q : query) (st : Stats) (m : String)
    (hm : (resolve q).err = some (.opError false m)) :
    (queryOne resolve q st).1 = some "net err" := by
  simp [queryOne, classifyExchange, hm]

/-- C8 witness: a connection-refused OpError at a concrete query is
classified net err, and the underlying message does not appear in the
label. -/
theorem queryOne_net_err_generic_witness :
    (queryOne
        (fun _ => { err := some (.opError false "connection refused"),
                    msg := { Rcode := 0, Answer := [] }, rttNs := 7 })
        { Server := "s1", Name := "a.com", Typ := TypeA } emptyStats).1 =
      some "net err" ∧ "net err" ≠ "connection refused" := by
  refine ⟨?_, by decide⟩
  exact queryOne_net_err_generic
    (fun _ => { err := some (.opError false "connection refused"),
                msg := { Rcode := 0, Answer := [] }, rttNs := 7 })
    { Server := "s1", Name := "a.com", Typ := TypeA } emptyStats
    "connection refused" rfl

/-- The result label that the Main runQueries loop attaches to a query: the
error string when queryOne returned an error, the fixed label ok
otherwise. -/
def resultLabel (ex : exchangeResult) : String :=
  match classifyExchange ex with
  | some e => e
  | none => "ok"

/-- The body of the Main runQueries loop for one query: increment the
attempts counter for the server, run queryOne, increment the successes
counter for the server only when no error came back, and increment the
results counter for (server, label). -/
def runQueriesStep (resolve : query → exchangeResult) (st : Stats)
    (q : query) : Stats :=
  let st1 : Stats := { st with attempts := st.attempts ++ [q.Server] }
  let r := queryOne resolve q st1
  match r.1 with
  | some e => { r.2 with results := r.2.results ++ [(q.Server, e)] }
  | none =>
    { r.2 with successes := r.2.successes ++ [q.Server],
               results := r.2.results ++ [(q.Server, "ok")] }

/-- The Main runQueries loop over a list of built queries. -/
def processQueries (resolve : query → exchangeResult) (st : Stats)
    (qs : List query) : Stats :=
  qs.foldl (runQueriesStep resolve) st

/-- Main runQueries: reject a nil dnsClient, otherwise run the loop over
the queries built for the name. -/
def runQueries (resolve : query → exchangeResult) (e : Experiment)
    (dnsClientPresent : Bool) (name : String) (st : Stats) :
    Except String Stats :=
  if dnsClientPresent = false then
    .error "runQueries requires a non-nil dnsClient instance"
  else
    .ok (processQueries resolve st (buildQueries e name))

theorem runQueriesStep_eq (resolve : query → exchangeResult) (st : Stats)
    (q : query) :
    runQueriesStep resolve st q =
      { attempts := st.attempts ++ [q.Server],
        successes := st.successes ++
          (if (classifyExchange (resolve q)).isNone then [q.Server] else []),
        results := st.results ++ [(q.Server, resultLabel (resolve q))],
        queryTimes := st.queryTimes ++
          [(q.Server, typeToString q.Typ, (resolve q).rttNs)] } := by
  cases hc : classifyExchange (resolve q) with
  | none => simp [runQueriesStep, queryOne, hc, resultLabel]
  | some e => simp [runQueriesStep, queryOne, hc, resultLabel]

theorem processQueries_eq (resolve : query → exchangeResult)
    (qs : List query) (st : Stats) :
    processQueries resolve st qs =
      { attempts := st.attempts ++ qs.map (fun q => q.Server),
        successes := st.successes ++
          (qs.filter (fun q => (classifyExchange (resolve q)).isNone)).map
            (fun q => q.Server),
        results := st.results ++
          qs.map (fun q => (q.Server, resultLabel (resolve q))),
        queryTimes := st.queryTimes ++
          qs.map (fun q => (q.Server, typeToString q.Typ,
            (resolve q).rttNs)) } := by
  induction qs generalizing st with
  | nil => simp [processQueries]
  | cons q rest ih =>
    show processQueries resolve (runQueriesStep resolve st q) rest = _
    rw [ih, runQueriesStep_eq]
    cases hc : (classifyExchange (resolve q)).isNone <;>
      simp [hc, List.filter_cons]

theorem sum_countP_pair (ps : List (String × String)) (s : String)
    (L : Finset String) (hcover : ∀ p ∈ ps, p.1 = s → p.2 ∈ L) :
    ∑ lab ∈ L, ps.countP (fun p => decide (p = (s, lab))) =
      ps.countP (fun p => decide (p.1 = s)) := by
  induction ps with
  | nil => simp
  | cons p rest ih =>
    have hcr : ∀ x ∈ rest, x.1 = s → x.2 ∈ L :=
      fun x hx => hcover x (List.mem_cons_of_mem _ hx)
    rw [List.countP_cons]
    have hsum : ∀ lab ∈ L, ((p :: rest).countP
        (fun x => decide (x = (s, lab)))) =
        rest.countP (fun x => decide (x = (s, lab))) +
          (if p = (s, lab) then 1 else 0) := by
      intro lab _
      rw [List.countP_cons]
      simp
    rw [Finset.sum_congr rfl hsum, Finset.sum_add_distrib, ih hcr]
    congr 1
    obtain ⟨p1, p2⟩ := p
    by_cases hp : p1 = s
    · subst hp
      have hp2 : p2 ∈ L := hcover (p1, p2) (List.mem_cons_self _ _) rfl
      have hcond : ∀ lab : String,
          (if (p1, p2) = (p1, lab) then (1 : Nat) else 0) =
          (if lab = p2 then 1 else 0) := by
        intro lab
        by_cases hl : lab = p2
        · subst hl; simp
        · have h1 : (p1, p2) ≠ (p1, lab) := by
            intro hcontra
            exact hl (congrArg Prod.snd hcontra).symm
          simp [h1, hl]
      rw [Finset.sum_congr rfl (fun lab _ => hcond lab)]
      rw [Finset.sum_ite_eq' L p2 (fun _ => (1 : Nat))]
      simp [hp2]
    · have hcond : ∀ lab : String,
          (if (p1, p2) = (s, lab) then (1 : Nat) else 0) = 0 := by
        intro lab
        simp [Prod.ext_iff, hp]
      rw [Finset.sum_congr rfl (fun lab _ => hcond lab)]
      simp [hp]

/-- C6: running the queries loop from the process-start counter state, for
every server: the attempts counter equals the number of queries dispatched
to that server; the successes counter counts exactly the queries to that
server whose outcome is a success; and, over any finite label set covering
every result label recorded for that server, the sum of the results
counters of that server equals its attempts counter. -/
theorem runQueries_counter_invariants (resolve : query → exchangeResult)
    (qs : List query) (s : String) (L : Finset String)
    (hcover : ∀ p ∈ (processQueries resolve emptyStats qs).results,
      p.1 = s → p.2 ∈ L) :
    ((processQueries resolve emptyStats qs).attempts.count s =
      qs.countP (fun q => decide (q.Server = s))) ∧
    ((processQueries resolve emptyStats qs).successes.count s =
      qs.countP (fun q => decide (q.Server = s) &&
        (classifyExchange (resolve q)).isNone)) ∧
    (∑ lab ∈ L, (processQueries resolve emptyStats qs).results.countP
        (fun p => decide (p = (s, lab))) =
      (processQueries resolve emptyStats qs).attempts.count s) := by
  have heq := processQueries_eq resolve qs emptyStats
  have hattempts : (processQueries resolve emptyStats qs).attempts.count s =
      qs.countP (fun q => decide (q.Server = s)) := by
    rw [heq]
    show (qs.map (fun q => q.Server)).countP (· == s) = _
    rw [List.countP_map]
    refine List.countP_congr ?_
    intro q _
    simp [Function.comp]
  refine ⟨hattempts, ?_, ?_⟩
  · rw [heq]
    show ((qs.filter (fun q => (classifyExchange (resolve q)).isNone)).map
        (fun q => q.Server)).countP (· == s) = _
    rw [List.countP_map, List.countP_filter]
    refine List.countP_congr ?_
    intro q _
    simp [Function.comp]
  · have hres : (processQueries resolve emptyStats qs).results =
        qs.map (fun q => (q.Server, resultLabel (resolve q))) := by
      rw [heq]
      simp [emptyStats]
    have hc2 : ∀ p ∈ (qs.map (fun q => (q.Server, resultLabel (resolve q)))),
        p.1 = s → p.2 ∈ L := by
      intro p hp
      apply hcover
      rw [hres]
      exact hp
    have hsum := sum_countP_pair
      (qs.map (fun q => (q.Server, resultLabel (resolve q)))) s L hc2
    calc ∑ lab ∈ L, (processQueries resolve emptyStats qs).results.countP
          (fun p => decide (p = (s, lab)))
        = ∑ lab ∈ L, (qs.map
            (fun q => (q.Server, resultLabel (resolve q)))).countP
              (fun p => decide (p = (s, lab))) := by rw [hres]
      _ = (qs.map (fun q => (q.Server, resultLabel (resolve q)))).countP
            (fun p => decide (p.1 = s)) := hsum
      _ = qs.countP (fun q => decide (q.Server = s)) := by
            rw [List.countP_map]
            refine List.countP_congr ?_
            intro q _
            simp [Function.comp]
      _ = (processQueries resolve emptyStats qs).attempts.count s :=
            hattempts.symm

/-- The resolution oracle of the C6 witness: s1 answers successfully, s2
fails with SERVFAIL. -/
def resolveC6 (q : query) : exchangeResult :=
  if q.Server = "s1" then
    { err := none, msg := { Rcode := 0, Answer := [] }, rttNs := 3 }
  else
    { err := none, msg := { Rcode := 2, Answer := [] }, rttNs := 4 }

/-- C6 witness: over two concrete queries to s1 and s2, server s1 has one
attempt, one success, and its results counters over the covering label set
sum to its attempts counter. -/
theorem runQueries_counter_invariants_witness :
    ((processQueries resolveC6 emptyStats
        [{ Server := "s1", Name := "a.com", Typ := TypeA },
         { Server := "s2", Name := "a.com", Typ := TypeA }]).attempts.count
      "s1" = 1) ∧
    ((processQueries resolveC6 emptyStats
        [{ Server := "s1", Name := "a.com", Typ := TypeA },
         { Server := "s2", Name := "a.com", Typ := TypeA }]).successes.count
      "s1" = 1) := by
  have h := runQueries_counter_invariants resolveC6
    [{ Server := "s1", Name := "a.com", Typ := TypeA },
     { Server := "s2", Name := "a.com", Typ := TypeA }]
    "s1" {"ok", "SERVFAIL"} (by decide)
  have h1 := h.1
  have h2 := h.2.1
  rw [h1, h2]
  constructor <;> decide

end Main

/-- The number of worker goroutines launched by spawn, which is identical in
every revision: for i from 0 while i < Parallel, an inner loop launches one
goroutine per step for j from 0 while j < SpawnRate, incrementing both i and
j, then sleeps SpawnInterval.  The outer guard is only checked between
batches, so every batch launches exactly SpawnRate goroutines.  Parallel and
SpawnRate are Go ints.  (A non-positive rate would make the Go loop spin
forever launching nothing; the model returns 0 there so that the recursion
terminates; Valid rules that case out.) -/
def spawnLoop (parallel rate : Int) (i : Int) : Nat :=
  if i < parallel then
    if rate ≤ 0 then 0
    else rate.toNat + spawnLoop parallel rate (i + rate)
  else 0
termination_by (parallel - i).toNat
decreasing_by
  simp_wf
  omega

/-- The total number of worker goroutines spawn creates, starting at i = 0. -/
def spawnTotal (parallel rate : Int) : Nat := spawnLoop parallel rate 0

/-- C2, evaluated at the failing configuration Parallel = 3, SpawnRate = 2:
spawn launches 4 worker goroutines, not 3 — the second batch starts because
i = 2 < 3 and then launches a full batch of 2, overshooting Parallel.  This
contradicts both the claim and the doc comment of spawn (worker goroutines
up to the configured Parallel setting). -/
theorem spawn_total_overshoots : spawnTotal 3 2 = 4 ∧ (4 : Nat) ≠ 3 := by
  constructor
  · rw [spawnTotal]
    rw [spawnLoop]
    norm_num
    rw [spawnLoop]
    norm_num
    rw [spawnLoop]
    norm_num
    decide
  · decide

namespace RevDB

/-- maxInsertRetries of the persistence revision. -/
def maxInsertRetries : Nat := 3

/-- What becomes of one result row: saved after some number of insert
attempts, or fatal (log.Fatalf, terminating the whole run) after the retry
loop still ends with an error. -/
inductive saveOutcome where
  | saved (attemptsMade : Nat)
  | fatal (msg : String)
deriving Repr, DecidableEq

/-- saveQueryResult, as a function of the outcome of each db.Exec insert
attempt (attempt i is the error of the i-th Exec call, none on success).
The Go loop runs i from 0 while i < maxInsertRetries and breaks on the
first success; it is unrolled here for the fixed constant 3.  The inserted
row values do not influence the control flow and are abstracted away.  If
the error is still set after the loop, log.Fatalf terminates the run. -/
def saveQueryResult (attempt : Nat → Option String) : saveOutcome :=
  match attempt 0 with
  | none => .saved 1
  | some _ =>
    match attempt 1 with
    | none => .saved 2
    | some _ =>
      match attempt 2 with
      | none => .saved 3
      | some e => .fatal ("Failed to insert result after 3 tries: " ++ e)

/-- How many insert attempts were performed for an outcome. -/
def attemptsUsed : saveOutcome → Nat
  | .saved n => n
  | .fatal _ => maxInsertRetries

/-- C10: at most 3 insert attempts are ever made; if any of the first 3
attempts succeeds the result is saved with no fatal abort; and only when
all 3 consecutive attempts fail is the outcome fatal, terminating the
run. -/
theorem saveQueryResult_retry_bound (attempt : Nat → Option String) :
    attemptsUsed (saveQueryResult attempt) ≤ maxInsertRetries ∧
    ((∃ i, i < maxInsertRetries ∧ attempt i = none) →
      ∃ n, n ≤ maxInsertRetries ∧ saveQueryResult attempt = .saved n) ∧
    ((∀ i, i < maxInsertRetries → attempt i ≠ none) →
      ∃ msg, saveQueryResult attempt = .fatal msg) := by
  cases h0 : attempt 0 with
  | none =>
    refine ⟨by simp [saveQueryResult, h0, attemptsUsed, maxInsertRetries], ?_, ?_⟩
    · intro _
      exact ⟨1, by decide, by simp [saveQueryResult, h0]⟩
    · intro hall
      exact absurd h0 (hall 0 (by decide))
  | some e0 =>
    cases h1 : attempt 1 with
    | none =>
      refine ⟨by simp [saveQueryResult, h0, h1, attemptsUsed, maxInsertRetries],
        ?_, ?_⟩
      · intro _
        exact ⟨2, by decide, by simp [saveQueryResult, h0, h1]⟩
      · intro hall
        exact absurd h1 (hall 1 (by decide))
    | some e1 =>
      cases h2 : attempt 2 with
      | none =>
        refine ⟨by simp [saveQueryResult, h0, h1, h2, attemptsUsed,
          maxInsertRetries], ?_, ?_⟩
        · intro _
          exact ⟨3, by decide, by simp [saveQueryResult, h0, h1, h2]⟩
        · intro hall
          exact absurd h2 (hall 2 (by decide))
      | some e2 =>
        refine ⟨by simp [saveQueryResult, h0, h1, h2, attemptsUsed,
          maxInsertRetries], ?_, ?_⟩
        · intro hex
          obtain ⟨i, hi, hnone⟩ := hex
          have hi3 : i < 3 := hi
          interval_cases i
          · exact absurd hnone (by simp [h0])
          · exact absurd hnone (by simp [h1])
          · exact absurd hnone (by simp [h2])
        · intro _
          exact ⟨"Failed to insert result after 3 tries: " ++ e2,
            by simp [saveQueryResult, h0, h1, h2]⟩

/-- The insert oracle of the C10 witness: the first two attempts fail with
a transient error, the third succeeds. -/
def attemptC10 (i : Nat) : Option String :=
  if i < 2 then some "Deadlock found when trying to get lock" else none

/-- C10 witness: two insert failures followed by a success on the third
attempt end in a saved outcome within the retry bound, with no fatal
abort. -/
theorem saveQueryResult_retry_bound_witness :
    ∃ n, n ≤ maxInsertRetries ∧
      saveQueryResult attemptC10 = .saved n := by
  exact (saveQueryResult_retry_bound attemptC10).2.1 ⟨2, by decide, by decide⟩

end RevDB

end DnsLoL
